import Mathlib

/-!
Verification of the release-changelog synthesis pipeline (`release_notes.py`)
of the gpt-commit-summarizer repository, as a shallow embedding in Lean 4.

Python dictionaries coming from the hosting API are embedded as structures;
a JSON field that can be `null` (or absent) is an `Option`; Python string
truthiness (`if s:` is false exactly for `None` and `""`) is modelled
explicitly where the source relies on it.  Network responses are passed in
as explicit data (a response per page number, or per commit sha), and the
LLM round trip `get_completion` is a function parameter returning the text
of the first choice.  A Python function that can raise on some input is
embedded with an `Option`/`Except`-style result, `none` standing for the
raised exception.
-/

/-- A GitHub release record as consumed by `release_notes.py`: the fields
`tag_name`, `name`, `body` and `published_at` of the API's JSON object.
`tag_name` is an `Option` so that a `null` value (which makes
`r["tag_name"].lower()` raise in Python) is representable. -/
structure Release where
  tag_name : Option String
  name : Option String
  body : Option String
  published_at : String
  deriving Repr, DecidableEq

/-- One element of a commit's `files` list: a filename and an optional
unified-diff `patch` (the `patch` key can be absent for binary or huge
files; `file.get('patch', '')` then yields `""`, which we model by
`Option.getD`). -/
structure FileChange where
  filename : String
  patch : Option String
  deriving Repr, DecidableEq

/-- A commit as used by the pipeline: sha, commit message, author name, and
the lazily attached `detailed_diff` list (absent until — and unless — the
per-commit detail fetch succeeds). -/
structure Commit where
  sha : String
  message : String
  author : String
  detailed_diff : Option (List FileChange)
  deriving Repr, DecidableEq

/-- A role-tagged chat message sent to the LLM. -/
structure ChatMessage where
  role : String
  content : String
  deriving Repr, DecidableEq

/-- `sanitize_filename` (release_notes.py:16-18):
`filename.replace('/', '_').replace('\\', '_')`.  Replacing a one-character
pattern by a one-character replacement is exactly a character map, so the
chained `replace` calls are embedded as two chained maps over the
character list. -/
def sanitize_filename (filename : String) : String :=
  ⟨(filename.data.map (fun c => if c = '/' then '_' else c)).map
    (fun c => if c = '\\' then '_' else c)⟩

/-- Python's `"production" in s.lower()`: substring containment after
lowercasing, embedded on the character list (lowercasing modelled
per-character). -/
def prodIn (s : String) : Bool :=
  decide ("production".data <:+: s.data.map Char.toLower)

/-- Python's `o and "production" in o.lower()` for an optional string field
(`name` or `body`): `None` and `""` are falsy, otherwise the substring
test runs. -/
def optProdClause : Option String → Bool
  | Option.none => false
  | Option.some s => !s.isEmpty && prodIn s

/-- `filter_production_releases` (release_notes.py:47-52).  The list
comprehension keeps `r` when
`"production" in r["tag_name"].lower() or (r["name"] and ...) or (r["body"] and ...)`.
Evaluating the predicate on a release whose `tag_name` is `null` raises
`AttributeError` in Python, embedded here as the `none` result. -/
def filter_production_releases : List Release → Option (List Release)
  | [] => Option.some []
  | r :: rs =>
    match r.tag_name with
    | Option.none => Option.none
    | Option.some t =>
      (filter_production_releases rs).map fun rest =>
        if prodIn t || optProdClause r.name || optProdClause r.body then r :: rest else rest

/-- The spec's membership criterion, stated from its words: a release is
retained when its tag, name, or body contains the marker substring
"production" case-insensitively (for a comparison with the source-derived
`filter_production_releases`). -/
def specProductionPred (r : Release) : Bool :=
  prodIn (r.tag_name.getD "") || optProdClause r.name || optProdClause r.body

/-- One page of the releases endpoint: HTTP status and decoded item list. -/
structure PageResp where
  status : Nat
  items : List Release
  deriving Repr, DecidableEq

/-- One GET request issued against the releases endpoint, with its
`page` and `per_page` query parameters. -/
structure PageRequest where
  page : Nat
  per_page : Nat
  deriving Repr, DecidableEq

/-- The loop of `fetch_releases` (release_notes.py:20-45).  The network is
an explicit map from the `(page, per_page)` parameters to the response;
the Python `while True` loop is given fuel, `none` standing for
non-termination (a network that never serves an empty page).  The result
pairs the log of issued requests with the returned release list:
a non-200 response returns `[]` at once, an empty page returns the
accumulated releases, otherwise the page is appended and the loop
continues with `page + 1`. -/
def fetch_releases_go (pages : Nat → Nat → PageResp) :
    Nat → Nat → List Release → List PageRequest → Option (List PageRequest × List Release)
  | 0, _, _, _ => Option.none
  | fuel + 1, page, releases, log =>
    let resp := pages page 100
    if resp.status ≠ 200 then Option.some (log ++ [⟨page, 100⟩], [])
    else if resp.items.isEmpty then Option.some (log ++ [⟨page, 100⟩], releases)
    else fetch_releases_go pages fuel (page + 1) (releases ++ resp.items) (log ++ [⟨page, 100⟩])

/-- The value returned to the caller of `fetch_releases`: pagination starts
at page 1 with an empty accumulator. -/
def fetch_releases (pages : Nat → Nat → PageResp) (fuel : Nat) : Option (List Release) :=
  (fetch_releases_go pages fuel 1 [] []).map Prod.snd

/-- The requests `fetch_releases` issues (same run as `fetch_releases`,
projected to the log). -/
def fetch_releases_requests (pages : Nat → Nat → PageResp) (fuel : Nat) :
    Option (List PageRequest) :=
  (fetch_releases_go pages fuel 1 [] []).map Prod.fst

/-- The request log a run consuming `k + 1` pages from `page` produces:
pages `page, page + 1, ..., page + k`, each with `per_page = 100`. -/
def expectedLog (page : Nat) : Nat → List PageRequest
  | 0 => [⟨page, 100⟩]
  | k + 1 => ⟨page, 100⟩ :: expectedLog (page + 1) k

/-- The concatenation, in order, of the items of `k` consecutive pages
starting at `page`. -/
def expectedItems (pages : Nat → Nat → PageResp) (page : Nat) : Nat → List Release
  | 0 => []
  | k + 1 => (pages page 100).items ++ expectedItems pages (page + 1) k

/-- The compare-endpoint response consumed by `get_commits_between_tags`:
HTTP status and the `commits` array of the compare result. -/
structure CompareResp where
  status : Nat
  commits : List Commit
  deriving Repr, DecidableEq

/-- `get_commits_between_tags` (release_notes.py:54-75).  `compare` is the
response of the three-dot compare request; `detail sha` is the outcome of
the per-commit detail GET: `none` for a non-200 status (the commit is then
left untouched), `some files` for a 200 response whose
`commit_data.get('files', [])` decoded to `files`. -/
def get_commits_between_tags (compare : CompareResp)
    (detail : String → Option (List FileChange)) : List Commit :=
  if compare.status ≠ 200 then []
  else
    compare.commits.map fun c =>
      match detail c.sha with
      | Option.some files => { c with detailed_diff := Option.some files }
      | Option.none => c

/-- One iteration of the diff-collection loop of `summarize_commit`
(release_notes.py:81-85): `changes = file.get('patch', '')`, and the entry
`f"File: {filename}\n{changes}"` is kept only when `changes` is truthy. -/
def diff_entry (f : FileChange) : Option String :=
  let changes := f.patch.getD ""
  if changes = "" then Option.none
  else Option.some ("File: " ++ f.filename ++ "\n" ++ changes)

/-- The `diff_summary` list built by the for-loop of `summarize_commit`
over `commit.get('detailed_diff', [])`, appending the kept entries in file
order. -/
def diff_summary (c : Commit) : List String :=
  (c.detailed_diff.getD []).foldl
    (fun acc f =>
      match diff_entry f with
      | Option.some e => acc ++ [e]
      | Option.none => acc) []

/-- `diff_text = "\n\n".join(diff_summary) if diff_summary else
"No detailed changes available"` (release_notes.py:87). -/
def diff_text (c : Commit) : String :=
  if (diff_summary c).isEmpty then "No detailed changes available"
  else String.intercalate "\n\n" (diff_summary c)

/-- The fixed system prompt of the per-commit summarization request
(release_notes.py:90-96). -/
def perCommitSystemPrompt : String :=
  "Please provide a concise, clear summary of the following commit in changelog format. \n"
  ++ "Important guidelines:\n"
  ++ "- Distinguish between actual bug fixes (issues in existing functionality) and QA-related fixes (issues found during testing of new features)\n"
  ++ "- QA tickets (usually containing \x27QA-\x27 or similar in commit messages) should be categorized as \x27Improvements\x27 or \x27Features\x27 since they\x27re enhancing new functionality\n"
  ++ "- Only categorize as \x27Bug Fixes\x27 if it\x27s fixing existing, previously working functionality\n"
  ++ "- Focus on the impact and purpose of the changes from an end-user perspective\n"
  ++ "- Include relevant technical details only if they\x27re important for understanding the change"

/-- The messages `summarize_commit` sends (release_notes.py:89-98): the
fixed system prompt and a user message holding the commit message, author
name and the diff text. -/
def summarize_messages (c : Commit) : List ChatMessage :=
  [⟨"system", perCommitSystemPrompt⟩,
   ⟨"user", "Commit message: " ++ c.message ++ "\nAuthor: " ++ c.author
      ++ "\n\nCode Changes:\n" ++ diff_text c⟩]

/-- `summarize_commit` (release_notes.py:77-100).  The LLM round trip
`get_completion(...).choices[0].message.content` is the function parameter
`get_completion`, returning the text of the first choice. -/
def summarize_commit (get_completion : List ChatMessage → String) (c : Commit) : String :=
  get_completion (summarize_messages c)

/-- The fixed system prompt of the consolidated-changelog request
(release_notes.py:115-158). -/
def consolidatedSystemPrompt : String :=
  "Please create a comprehensive QA-focused changelog from the following commit summaries.\n"
  ++ "\nOrganization guidelines:\n"
  ++ "\n1. High-Level Summary:\n"
  ++ "   - Brief overview of the release\x27s major changes\n"
  ++ "   - Key areas requiring focused testing\n"
  ++ "   - Potential risk areas\n"
  ++ "\n2. Detailed Changes (categorized):\n"
  ++ "   🚀 New Features\n"
  ++ "   - List each new feature\n"
  ++ "   - Specify what functionality needs to be tested\n"
  ++ "   - Note any dependencies or related features that could be impacted\n"
  ++ "   \n   ✨ Improvements & Enhancements\n"
  ++ "   - Detail improvements to existing features\n"
  ++ "   - Highlight changes in user workflows or UI\n"
  ++ "   - Note any performance improvements that need verification\n"
  ++ "   \n   🐛 Bug Fixes\n"
  ++ "   - Describe each fix and its impact\n"
  ++ "   - Specify regression testing needs\n"
  ++ "   - Note related features that should be re-tested\n"
  ++ "   \n   🔧 Technical Changes\n"
  ++ "   - List infrastructure or system-level changes\n"
  ++ "   - Note any performance or security implications\n"
  ++ "   - Highlight areas needing load/stress testing\n"
  ++ "\n3. Testing Focus Areas:\n"
  ++ "   - Critical user paths affected\n"
  ++ "   - Cross-browser/device testing requirements\n"
  ++ "   - API endpoints or services modified\n"
  ++ "   - Database changes or data migrations\n"
  ++ "   - Performance-sensitive areas\n"
  ++ "   - Security considerations\n"
  ++ "\n4. Integration Points:\n"
  ++ "   - List affected third-party integrations\n"
  ++ "   - Note any API changes or versioning\n"
  ++ "   - Highlight cross-service dependencies\n"
  ++ "\nMake it detailed and structured, focusing on what QA needs to verify and test thoroughly."

/-- The messages of the consolidated-changelog request
(release_notes.py:114-160): the fixed system prompt and a user message
joining the per-commit summaries with newlines. -/
def consolidated_messages (commit_summaries : List String) : List ChatMessage :=
  [⟨"system", consolidatedSystemPrompt⟩,
   ⟨"user", String.intercalate "\n" commit_summaries⟩]

/-- `generate_release_changelog` (release_notes.py:102-162): resolve the
commit range, summarize each commit in order, then issue the consolidated
request over the newline-joined summaries. -/
def generate_release_changelog (get_completion : List ChatMessage → String)
    (compare : CompareResp) (detail : String → Option (List FileChange)) : String :=
  let commits := get_commits_between_tags compare detail
  let commit_summaries := commits.map (summarize_commit get_completion)
  get_completion (consolidated_messages commit_summaries)

/-- The `previous_tag` lookup of single-release mode
(release_notes.py:210): the `tag_name` of the element at `idx + 1` when
that index is in range, else `None`.  (A `null` `tag_name` at `idx + 1`
also yields Python `None`; the two are indistinguishable there.) -/
def previous_tag_lookup (prs : List Release) (idx : Nat) : Option String :=
  if h : idx + 1 < prs.length then (prs.get ⟨idx + 1, h⟩).tag_name else Option.none

/-- Outcome of one body of the single-release selection loop
(release_notes.py:204-231). -/
inductive SingleOutcome where
  /-- A changelog file was written: the previous tag used for generation,
  the file path, and the file content. -/
  | wrote (previousTag filepath content : String)
  /-- "This is the oldest release, no previous release to compare with." —
  reported, no file written. -/
  | oldest
  /-- Out-of-range selection: "Invalid selection. Please try again." -/
  | invalidSelection
  /-- An exception reached the generic handler; no file written. -/
  | errored
  deriving Repr, DecidableEq

/-- One iteration of single-release mode for an in-range numeric selection
(release_notes.py:204-231).  `gen release previousTag` abstracts the
`generate_release_changelog` call (its network and LLM inputs).  The
Python guard `if previous_tag:` is string truthiness: `None` and `""`
both take the no-previous-release branch. -/
def singleStep (gen : Release → String → String) (prs : List Release) (idx : Nat) :
    SingleOutcome :=
  if h : idx < prs.length then
    let release := prs.get ⟨idx, h⟩
    match previous_tag_lookup prs idx with
    | Option.some t =>
      if t = "" then SingleOutcome.oldest
      else
        match release.tag_name with
        | Option.some tag =>
          SingleOutcome.wrote t ("changelogs/changelog_" ++ sanitize_filename tag ++ ".md")
            ("# Changelog for " ++ tag ++ "\n\nRelease Date: " ++ release.published_at
              ++ "\n\n" ++ gen release t)
        | Option.none => SingleOutcome.errored
    | Option.none => SingleOutcome.oldest
  else SingleOutcome.invalidSelection

/-- Outcome of one body of the comparison-mode selection loop
(release_notes.py:246-277). -/
inductive CompareOutcome where
  /-- A comparison changelog file was written. -/
  | wrote (olderTag newerTag filepath content : String)
  /-- "Error: First release must be newer than second release." —
  reported, `continue`, no file written. -/
  | rejectedOrder
  /-- An index out of range: "Invalid selection. Please try again." -/
  | invalidSelection
  /-- An exception reached the generic handler; no file written. -/
  | errored
  deriving Repr, DecidableEq

/-- One iteration of comparison mode for a pair of numeric selections
(release_notes.py:246-277).  `today` stands for
`datetime.now().strftime('%Y-%m-%d')`. -/
def compareStep (gen : Release → String → String) (today : String)
    (prs : List Release) (newer_idx older_idx : Nat) : CompareOutcome :=
  if h : newer_idx < prs.length ∧ older_idx < prs.length then
    if newer_idx ≥ older_idx then CompareOutcome.rejectedOrder
    else
      let newer := prs.get ⟨newer_idx, h.1⟩
      let older := prs.get ⟨older_idx, h.2⟩
      match older.tag_name, newer.tag_name with
      | Option.some ot, Option.some nt =>
        CompareOutcome.wrote ot nt
          ("changelogs/comparison_" ++ sanitize_filename ot ++ "_to_"
            ++ sanitize_filename nt ++ ".md")
          ("# Changes from " ++ ot ++ " to " ++ nt ++ "\n\nComparison Date: " ++ today
            ++ "\n\n" ++ gen newer ot)
      | _, _ => CompareOutcome.errored
  else CompareOutcome.invalidSelection

/-! ## Concrete data used by witnesses and counterexamples -/

/-- A production release (matched through its tag). -/
def rProd : Release :=
  ⟨Option.some "v2.0-production", Option.none, Option.none, "2024-01-02T00:00:00Z"⟩

/-- An older production release. -/
def rOlder : Release :=
  ⟨Option.some "v1.0-production", Option.none, Option.none, "2023-06-01T00:00:00Z"⟩

/-- A non-production release. -/
def rBeta : Release :=
  ⟨Option.some "v0.9-beta", Option.none, Option.none, "2023-01-01T00:00:00Z"⟩

/-- A release whose `tag_name` is `null` but whose `name` and `body` are
present (the body even matches the marker). -/
def rNullTag : Release :=
  ⟨Option.none, Option.some "hotfix", Option.some "production rollout",
   "2023-07-01T00:00:00Z"⟩

/-- A concrete stand-in for the changelog-generation call. -/
def genNoop : Release → String → String := fun _ _ => "changelog text"

/-- A concrete stand-in for the LLM round trip. -/
def gcNoop : List ChatMessage → String := fun _ => "summary text"

/-- A commit none of whose files carries a non-empty patch. -/
def cNoPatch : Commit :=
  ⟨"abc123", "Fix login flow", "Alice",
   Option.some [⟨"a.py", Option.none⟩, ⟨"b.py", Option.some ""⟩]⟩

/-- A commit with one patched and one unpatched file. -/
def cPatched : Commit :=
  ⟨"def456", "Add search", "Bob",
   Option.some [⟨"a.py", Option.some "@@ -1 +1 @@"⟩, ⟨"b.py", Option.none⟩]⟩

/-- A commit whose `detailed_diff` was never attached. -/
def cBare : Commit := ⟨"a1b2c3", "Initial commit", "Eve", Option.none⟩

/-- A network serving two non-empty release pages and then an empty one. -/
def pagesTwo : Nat → Nat → PageResp := fun p _ =>
  if p = 1 then ⟨200, [rProd]⟩ else if p = 2 then ⟨200, [rOlder]⟩ else ⟨200, []⟩

/-- A network failing with 403 from the second page on. -/
def pagesFail : Nat → Nat → PageResp := fun p _ =>
  if p = 1 then ⟨200, [rProd]⟩ else ⟨403, []⟩

/-! ## Helper lemmas -/

/-- Strings whose characters avoid `/` and `\` are fixed by the two
replacement maps of `sanitize_filename`. -/
theorem sanitize_maps_clean (l : List Char) (h : ∀ c ∈ l, c ≠ '/' ∧ c ≠ '\\') :
    (l.map (fun c => if c = '/' then '_' else c)).map
      (fun c => if c = '\\' then '_' else c) = l := by
  induction l with
  | nil => rfl
  | cons a l ih =>
    have ha := h a (List.mem_cons_self a l)
    simp only [List.map_cons, if_neg ha.1, if_neg ha.2]
    rw [ih fun c hc => h c (List.mem_cons_of_mem a hc)]

theorem sanitize_filename_no_sep (s : String) :
    ∀ c ∈ (sanitize_filename s).data, c ≠ '/' ∧ c ≠ '\\' := by
  intro c hc
  simp only [sanitize_filename, List.mem_map] at hc
  obtain ⟨b, ⟨a, _, rfl⟩, rfl⟩ := hc
  by_cases h1 : a = '/'
  · simp [h1]
  · by_cases h2 : a = '\\'
    · simp [h1, h2]
    · simp [h1, h2]

theorem sanitize_filename_id_of_clean (s : String)
    (h : ∀ c ∈ s.data, c ≠ '/' ∧ c ≠ '\\') : sanitize_filename s = s := by
  show String.mk _ = s
  conv_rhs => rw [show s = String.mk s.data from rfl]
  exact congrArg String.mk (sanitize_maps_clean s.data h)

/-- On a list whose releases all carry a `tag_name`, the source's filter
returns exactly the `List.filter` of the spec's membership criterion. -/
theorem filter_production_releases_eq (rs : List Release)
    (h : ∀ r ∈ rs, r.tag_name.isSome) :
    filter_production_releases rs = Option.some (rs.filter specProductionPred) := by
  induction rs with
  | nil => rfl
  | cons r rs ih =>
    obtain ⟨t, ht⟩ := Option.isSome_iff_exists.mp (h r (List.mem_cons_self r rs))
    simp only [filter_production_releases, ht]
    rw [ih fun x hx => h x (List.mem_cons_of_mem r hx)]
    have hpred : specProductionPred r = (prodIn t || optProdClause r.name || optProdClause r.body) := by
      simp [specProductionPred, ht]
    by_cases hp : (prodIn t || optProdClause r.name || optProdClause r.body) = true
    · simp [List.filter_cons, hpred, hp]
    · simp [List.filter_cons, hpred, hp]

/-- A successful run of the filter implies every input release had a
non-null `tag_name` (otherwise the comprehension would have raised). -/
theorem filter_production_releases_valid :
    ∀ (rs out : List Release), filter_production_releases rs = Option.some out →
      ∀ r ∈ rs, r.tag_name.isSome := by
  intro rs
  induction rs with
  | nil => intro out _ r hr; cases hr
  | cons a l ih =>
    intro out hout r hr
    cases hta : a.tag_name with
    | none => simp [filter_production_releases, hta] at hout
    | some t =>
      simp only [filter_production_releases, hta] at hout
      obtain ⟨rest, hrest, -⟩ := Option.map_eq_some'.mp hout
      rcases List.mem_cons.mp hr with rfl | hr'
      · simp [hta]
      · exact ih rest hrest r hr'

/-! ## Claim theorems -/

/-- C3 (amended): `sanitize_filename` is a total, deterministic function;
for every tag the result contains zero occurrences of `/` and `\`; on tags
containing neither separator it is the identity, so such distinct tags map
to distinct filenames.  (Unrestricted injectivity is refuted by
`sanitize_filename_collision`.) -/
theorem sanitize_filename_spec (s t : String) :
    (∀ c ∈ (sanitize_filename s).data, c ≠ '/' ∧ c ≠ '\\')
    ∧ ((∀ c ∈ s.data, c ≠ '/' ∧ c ≠ '\\') → sanitize_filename s = s)
    ∧ ((∀ c ∈ s.data, c ≠ '/' ∧ c ≠ '\\') → (∀ c ∈ t.data, c ≠ '/' ∧ c ≠ '\\') →
        sanitize_filename s = sanitize_filename t → s = t) :=
  ⟨sanitize_filename_no_sep s, sanitize_filename_id_of_clean s,
   fun hs ht heq => by
    rw [sanitize_filename_id_of_clean s hs, sanitize_filename_id_of_clean t ht] at heq
    exact heq⟩

/-- C3 counterexample: the distinct valid tags `a/b` and `a_b` map to the
same filename, so `sanitize_filename` is not injective. -/
theorem sanitize_filename_collision :
    "a/b" ≠ "a_b" ∧ sanitize_filename "a/b" = sanitize_filename "a_b" := by
  decide

theorem sanitize_filename_spec_witness :
    (∀ c ∈ (sanitize_filename "v2.0-production").data, c ≠ '/' ∧ c ≠ '\\')
    ∧ sanitize_filename "v2.0-production" = "v2.0-production" :=
  ⟨(sanitize_filename_spec "v2.0-production" "x").1,
   (sanitize_filename_spec "v2.0-production" "x").2.1 (by decide)⟩

/-- C7: on every release list (all of whose releases carry a `tag_name`,
as the data model requires), `filter_production_releases` returns exactly
the releases satisfying the case-insensitive "production" criterion on
tag, name, or body, and the output is a sublist of the input — relative
order preserved, input unchanged (the embedding is a pure function). -/
theorem filter_production_releases_spec (rs : List Release)
    (h : ∀ r ∈ rs, r.tag_name.isSome) :
    filter_production_releases rs = Option.some (rs.filter specProductionPred)
    ∧ (rs.filter specProductionPred).Sublist rs :=
  ⟨filter_production_releases_eq rs h, List.filter_sublist rs⟩

theorem filter_production_releases_spec_witness :
    filter_production_releases [rProd, rBeta] = Option.some [rProd] := by
  have h := (filter_production_releases_spec [rProd, rBeta] (by decide)).1
  rw [h]; decide

/-- C8: `filter_production_releases` is idempotent — filtering an
already-filtered list returns it unchanged. -/
theorem filter_production_releases_idem (rs out : List Release)
    (h : filter_production_releases rs = Option.some out) :
    filter_production_releases out = Option.some out := by
  have hv := filter_production_releases_valid rs out h
  have heq := filter_production_releases_eq rs hv
  have hout : out = rs.filter specProductionPred := by
    rw [h] at heq
    exact Option.some.inj heq
  have hv2 : ∀ r ∈ out, r.tag_name.isSome := by
    intro r hr
    exact hv r (List.mem_of_mem_filter (hout ▸ hr))
  rw [filter_production_releases_eq out hv2]
  have hfix : out.filter specProductionPred = out := by
    rw [List.filter_eq_self]
    intro a ha
    exact List.of_mem_filter (hout ▸ ha)
  rw [hfix]

theorem filter_production_releases_idem_witness :
    filter_production_releases [rProd] = Option.some [rProd] :=
  filter_production_releases_idem [rProd, rBeta] [rProd] (by decide)

/-- C10: `filter_production_releases` tolerates a `null` `name` or `body`
on every release (it returns a list whenever every `tag_name` is present,
whatever the other fields hold), but a release with a `null` `tag_name`
makes it raise (`none`) instead of returning a list — even when `name`
and `body` are present and the body matches. -/
theorem filter_production_releases_null_tag (rs : List Release)
    (h : ∀ r ∈ rs, r.tag_name.isSome) :
    (filter_production_releases rs).isSome = true
    ∧ filter_production_releases [rNullTag] = Option.none := by
  refine ⟨?_, by decide⟩
  rw [filter_production_releases_eq rs h]
  rfl

theorem filter_production_releases_null_tag_witness :
    (filter_production_releases [rProd, rBeta]).isSome = true
    ∧ filter_production_releases [rNullTag] = Option.none :=
  filter_production_releases_null_tag [rProd, rBeta] (by decide)

/-- The append-accumulating for-loop of `summarize_commit` computes a
`filterMap` of `diff_entry`. -/
theorem diff_summary_foldl (l : List FileChange) (acc : List String) :
    l.foldl (fun acc f => match diff_entry f with
      | Option.some e => acc ++ [e]
      | Option.none => acc) acc = acc ++ l.filterMap diff_entry := by
  induction l generalizing acc with
  | nil => simp
  | cons f l ih =>
    cases hde : diff_entry f with
    | none => simp [hde, ih, List.filterMap_cons]
    | some e => simp [hde, ih, List.filterMap_cons]

theorem diff_summary_eq (c : Commit) :
    diff_summary c = (c.detailed_diff.getD []).filterMap diff_entry := by
  unfold diff_summary
  simpa using diff_summary_foldl (c.detailed_diff.getD []) []

/-- C5: when no file of the commit carries a non-empty patch, the diff
text handed to per-commit summarization is the literal fallback
"No detailed changes available"; when at least one file is patched, it is
the `"\n\n"`-join, in file order, of the kept `File: <name>\n<patch>`
entries, unpatched files omitted. -/
theorem diff_text_spec (c : Commit) :
    ((∀ f ∈ c.detailed_diff.getD [], f.patch.getD "" = "") →
      diff_text c = "No detailed changes available")
    ∧ ((∃ f ∈ c.detailed_diff.getD [], f.patch.getD "" ≠ "") →
      (c.detailed_diff.getD []).filterMap diff_entry ≠ []
      ∧ diff_text c
          = String.intercalate "\n\n" ((c.detailed_diff.getD []).filterMap diff_entry)) := by
  constructor
  · intro h
    have hnil : (c.detailed_diff.getD []).filterMap diff_entry = [] := by
      rw [List.filterMap_eq_nil_iff]
      intro f hf
      simp [diff_entry, h f hf]
    simp [diff_text, diff_summary_eq, hnil]
  · rintro ⟨f, hf, hp⟩
    have hmem : ("File: " ++ f.filename ++ "\n" ++ f.patch.getD "")
        ∈ (c.detailed_diff.getD []).filterMap diff_entry := by
      refine List.mem_filterMap.mpr ⟨f, hf, ?_⟩
      simp [diff_entry, hp]
    have hne : (c.detailed_diff.getD []).filterMap diff_entry ≠ [] := by
      intro hnil
      rw [hnil] at hmem
      cases hmem
    refine ⟨hne, ?_⟩
    unfold diff_text
    rw [diff_summary_eq, if_neg (by simpa [List.isEmpty_iff] using hne)]

theorem diff_text_spec_witness :
    diff_text cNoPatch = "No detailed changes available"
    ∧ diff_text cPatched = "File: a.py\n@@ -1 +1 @@" := by
  have h1 := (diff_text_spec cNoPatch).1 (by decide)
  have h2 := (diff_text_spec cPatched).2 ⟨⟨"a.py", Option.some "@@ -1 +1 @@"⟩, by decide, by decide⟩
  refine ⟨h1, ?_⟩
  rw [h2.2]
  decide

/-- C6: when the resolved commit list between the two tags is empty,
`generate_release_changelog` still issues the consolidated request, whose
user message is the newline-join of zero summaries — the empty string —
and returns the completion (total, so the pipeline does not fail). -/
theorem generate_release_changelog_empty (gc : List ChatMessage → String)
    (compare : CompareResp) (detail : String → Option (List FileChange))
    (h : get_commits_between_tags compare detail = []) :
    generate_release_changelog gc compare detail
      = gc [⟨"system", consolidatedSystemPrompt⟩, ⟨"user", ""⟩] := by
  unfold generate_release_changelog
  rw [h]
  rfl

theorem generate_release_changelog_empty_witness :
    generate_release_changelog gcNoop ⟨200, []⟩ (fun _ => Option.none)
      = gcNoop [⟨"system", consolidatedSystemPrompt⟩, ⟨"user", ""⟩] :=
  generate_release_changelog_empty gcNoop ⟨200, []⟩ (fun _ => Option.none) rfl

/-- C9: a commit whose per-commit detail fetch fails (non-200) is kept by
`get_commits_between_tags` at its original position, unchanged, so it
still lacks `detailed_diff`; `summarize_commit` succeeds on it, sending
the same fallback diff text "No detailed changes available" a commit with
no patched files would get. -/
theorem enrich_failure_spec (compare : CompareResp)
    (detail : String → Option (List FileChange)) (i : Nat)
    (hi : i < compare.commits.length) (h200 : compare.status = 200)
    (hdet : detail (compare.commits[i].sha) = Option.none) :
    (get_commits_between_tags compare detail).length = compare.commits.length
    ∧ (get_commits_between_tags compare detail)[i]? = Option.some compare.commits[i]
    ∧ (compare.commits[i].detailed_diff = Option.none →
        diff_text compare.commits[i] = "No detailed changes available"
        ∧ ∀ gc : List ChatMessage → String,
            summarize_commit gc compare.commits[i]
              = gc [⟨"system", perCommitSystemPrompt⟩,
                    ⟨"user", "Commit message: " ++ compare.commits[i].message
                      ++ "\nAuthor: " ++ compare.commits[i].author
                      ++ "\n\nCode Changes:\nNo detailed changes available"⟩]) := by
  unfold get_commits_between_tags
  rw [if_neg (by simp [h200])]
  refine ⟨by simp, ?_, ?_⟩
  · rw [List.getElem?_map, List.getElem?_eq_getElem hi, Option.map_some', hdet]
  · intro h0
    have hdt : diff_text compare.commits[i] = "No detailed changes available" := by
      unfold diff_text diff_summary
      rw [h0]
      rfl
    refine ⟨hdt, fun gc => ?_⟩
    unfold summarize_commit summarize_messages
    rw [hdt, String.append_assoc]
    rfl

theorem enrich_failure_spec_witness :
    (get_commits_between_tags ⟨200, [cBare]⟩ (fun _ => Option.none)).length = 1
    ∧ (get_commits_between_tags ⟨200, [cBare]⟩ (fun _ => Option.none))[0]?
        = Option.some cBare
    ∧ diff_text cBare = "No detailed changes available" := by
  have h := enrich_failure_spec ⟨200, [cBare]⟩ (fun _ => Option.none) 0 (by decide) rfl rfl
  exact ⟨h.1, h.2.1, (h.2.2 rfl).1⟩

/-- C1: in single-release mode, the previous-release lookup for index
`idx` is the `tag_name` of the filtered-list element at `idx + 1`; any tag
actually used for changelog generation (a `wrote` outcome) is exactly that
lookup value; and when `idx` is the last index the lookup is undefined and
the iteration reports the oldest-release case, writing no file. -/
theorem previous_tag_spec (prs : List Release) (idx : Nat) :
    (∀ h2 : idx + 1 < prs.length,
        previous_tag_lookup prs idx = (prs.get ⟨idx + 1, h2⟩).tag_name)
    ∧ (∀ (gen : Release → String → String) (t fp ct : String),
        singleStep gen prs idx = SingleOutcome.wrote t fp ct →
        previous_tag_lookup prs idx = Option.some t)
    ∧ (idx + 1 = prs.length →
        previous_tag_lookup prs idx = Option.none
        ∧ ∀ gen : Release → String → String,
            singleStep gen prs idx = SingleOutcome.oldest) := by
  refine ⟨?_, ?_, ?_⟩
  · intro h2
    unfold previous_tag_lookup
    rw [dif_pos h2]
  · intro gen t fp ct h
    unfold singleStep at h
    split at h
    case isTrue hidx =>
      cases hpt : previous_tag_lookup prs idx with
      | none => rw [hpt] at h; simp at h
      | some t' =>
        rw [hpt] at h
        by_cases ht' : t' = ""
        · simp [ht'] at h
        · cases htag : prs[idx].tag_name with
          | none => simp [ht', htag] at h
          | some tag =>
            simp [ht', htag] at h
            rw [h.1]
    case isFalse => simp at h
  · intro hl
    have hnone : previous_tag_lookup prs idx = Option.none := by
      unfold previous_tag_lookup
      rw [dif_neg (by omega)]
    refine ⟨hnone, fun gen => ?_⟩
    unfold singleStep
    rw [dif_pos (by omega), hnone]

theorem previous_tag_spec_witness :
    previous_tag_lookup [rProd, rOlder] 0 = Option.some "v1.0-production"
    ∧ singleStep genNoop [rProd, rOlder] 1 = SingleOutcome.oldest := by
  constructor
  · rw [(previous_tag_spec [rProd, rOlder] 0).1 (by decide)]
    decide
  · exact ((previous_tag_spec [rProd, rOlder] 1).2.2 (by decide)).2 genNoop

/-- C2: for every pair of in-range comparison-mode selections where the
newer index is not strictly below the older index (equality included), the
iteration rejects the pair with the order error — independently of the
changelog-generation function, which is therefore never invoked — writes
no file, and the loop repeats. -/
theorem compare_order_validation (gen gen2 : Release → String → String)
    (today today2 : String) (prs : List Release) (newer_idx older_idx : Nat)
    (h1 : newer_idx < prs.length) (h2 : older_idx < prs.length)
    (hord : older_idx ≤ newer_idx) :
    compareStep gen today prs newer_idx older_idx = CompareOutcome.rejectedOrder
    ∧ compareStep gen2 today2 prs newer_idx older_idx
        = compareStep gen today prs newer_idx older_idx := by
  have hstep : ∀ (g : Release → String → String) (d : String),
      compareStep g d prs newer_idx older_idx = CompareOutcome.rejectedOrder := by
    intro g d
    unfold compareStep
    rw [dif_pos ⟨h1, h2⟩, if_pos hord]
  exact ⟨hstep gen today, by rw [hstep gen2 today2, hstep gen today]⟩

theorem compare_order_validation_witness :
    compareStep genNoop "2024-01-01" [rProd, rOlder] 1 1 = CompareOutcome.rejectedOrder :=
  (compare_order_validation genNoop genNoop "2024-01-01" "2024-01-01" [rProd, rOlder]
    1 1 (by decide) (by decide) (by decide)).1

/-- Run of the pagination loop over `k` non-empty 200 pages followed by an
empty 200 page: it requests exactly pages `page .. page + k` and returns
the accumulated concatenation of the page items, in order. -/
theorem fetch_go_success (pages : Nat → Nat → PageResp) (k : Nat) :
    ∀ (fuel page : Nat) (acc : List Release) (log : List PageRequest),
      (∀ i, i < k → (pages (page + i) 100).status = 200 ∧ (pages (page + i) 100).items ≠ []) →
      (pages (page + k) 100).status = 200 →
      (pages (page + k) 100).items = [] →
      k < fuel →
      fetch_releases_go pages fuel page acc log
        = Option.some (log ++ expectedLog page k, acc ++ expectedItems pages page k) := by
  induction k with
  | zero =>
    intro fuel page acc log _ h200 hempty hfuel
    cases fuel with
    | zero => omega
    | succ f =>
      rw [Nat.add_zero] at h200 hempty
      simp only [fetch_releases_go]
      rw [if_neg (by simp [h200]), if_pos (by simp [hempty])]
      simp [expectedLog, expectedItems]
  | succ k ih =>
    intro fuel page acc log h h200 hempty hfuel
    cases fuel with
    | zero => omega
    | succ f =>
      obtain ⟨h0s, h0i⟩ := h 0 (Nat.succ_pos k)
      rw [Nat.add_zero] at h0s h0i
      simp only [fetch_releases_go]
      rw [if_neg (by simp [h0s]), if_neg (by simp [List.isEmpty_iff, h0i])]
      have hshift : ∀ i, i < k →
          (pages (page + 1 + i) 100).status = 200 ∧ (pages (page + 1 + i) 100).items ≠ [] := by
        intro i hik
        have hh := h (i + 1) (by omega)
        rwa [show page + (i + 1) = page + 1 + i by omega] at hh
      have h200s : (pages (page + 1 + k) 100).status = 200 := by
        rwa [show page + 1 + k = page + (k + 1) by omega]
      have hemptys : (pages (page + 1 + k) 100).items = [] := by
        rwa [show page + 1 + k = page + (k + 1) by omega]
      have hrec := ih f (page + 1) (acc ++ (pages page 100).items)
        (log ++ [(⟨page, 100⟩ : PageRequest)]) hshift h200s hemptys (by omega)
      rw [hrec]
      simp [expectedLog, expectedItems]

/-- Run of the pagination loop in which the page after `k` good pages
fails with a non-200 status: the whole accumulated result is discarded
and the empty list returned. -/
theorem fetch_go_fail (pages : Nat → Nat → PageResp) (k : Nat) :
    ∀ (fuel page : Nat) (acc : List Release) (log : List PageRequest),
      (∀ i, i < k → (pages (page + i) 100).status = 200 ∧ (pages (page + i) 100).items ≠ []) →
      (pages (page + k) 100).status ≠ 200 →
      k < fuel →
      fetch_releases_go pages fuel page acc log
        = Option.some (log ++ expectedLog page k, []) := by
  induction k with
  | zero =>
    intro fuel page acc log _ hbad hfuel
    cases fuel with
    | zero => omega
    | succ f =>
      rw [Nat.add_zero] at hbad
      simp only [fetch_releases_go]
      rw [if_pos (by simp [hbad])]
      simp [expectedLog]
  | succ k ih =>
    intro fuel page acc log h hbad hfuel
    cases fuel with
    | zero => omega
    | succ f =>
      obtain ⟨h0s, h0i⟩ := h 0 (Nat.succ_pos k)
      rw [Nat.add_zero] at h0s h0i
      simp only [fetch_releases_go]
      rw [if_neg (by simp [h0s]), if_neg (by simp [List.isEmpty_iff, h0i])]
      have hshift : ∀ i, i < k →
          (pages (page + 1 + i) 100).status = 200 ∧ (pages (page + 1 + i) 100).items ≠ [] := by
        intro i hik
        have hh := h (i + 1) (by omega)
        rwa [show page + (i + 1) = page + 1 + i by omega] at hh
      have hbads : (pages (page + 1 + k) 100).status ≠ 200 := by
        rwa [show page + 1 + k = page + (k + 1) by omega]
      have hrec := ih f (page + 1) (acc ++ (pages page 100).items)
        (log ++ [(⟨page, 100⟩ : PageRequest)]) hshift hbads (by omega)
      rw [hrec]
      simp [expectedLog]

/-- Every request the pagination loop logs carries `per_page = 100`. -/
theorem fetch_go_per_page (pages : Nat → Nat → PageResp) (fuel : Nat) :
    ∀ (page : Nat) (acc : List Release) (log : List PageRequest),
      (∀ r ∈ log, r.per_page = 100) →
      ∀ res, fetch_releases_go pages fuel page acc log = Option.some res →
        ∀ r ∈ res.1, r.per_page = 100 := by
  induction fuel with
  | zero =>
    intro page acc log hlog res hres
    simp [fetch_releases_go] at hres
  | succ f ih =>
    intro page acc log hlog res hres
    have hlog2 : ∀ r ∈ log ++ [(⟨page, 100⟩ : PageRequest)], r.per_page = 100 := by
      intro r hr
      rcases List.mem_append.mp hr with hr | hr
      · exact hlog r hr
      · rw [List.mem_singleton.mp hr]
    simp only [fetch_releases_go] at hres
    by_cases hs : (pages page 100).status ≠ 200
    · rw [if_pos hs] at hres
      obtain rfl := Option.some.inj hres
      exact hlog2
    · rw [if_neg hs] at hres
      by_cases he : (pages page 100).items.isEmpty
      · rw [if_pos he] at hres
        obtain rfl := Option.some.inj hres
        exact hlog2
      · rw [if_neg he] at hres
        exact ih (page + 1) (acc ++ (pages page 100).items) (log ++ [⟨page, 100⟩]) hlog2 res hres

/-- C4: `fetch_releases` pages through the endpoint with `per_page = 100`
until a page returns no items and returns the in-order concatenation of
all pages; whenever any page of the run fails with a non-200 status it
returns the empty list — the same value a release-less repository
produces, so callers cannot tell the two apart. -/
theorem fetch_releases_spec :
    (∀ (pages : Nat → Nat → PageResp) (k fuel : Nat),
      (∀ i, i < k → (pages (1 + i) 100).status = 200 ∧ (pages (1 + i) 100).items ≠ []) →
      (pages (1 + k) 100).status = 200 →
      (pages (1 + k) 100).items = [] →
      k < fuel →
      fetch_releases pages fuel = Option.some (expectedItems pages 1 k)
      ∧ fetch_releases_requests pages fuel = Option.some (expectedLog 1 k))
    ∧ (∀ (pages : Nat → Nat → PageResp) (k fuel : Nat),
      (∀ i, i < k → (pages (1 + i) 100).status = 200 ∧ (pages (1 + i) 100).items ≠ []) →
      (pages (1 + k) 100).status ≠ 200 →
      k < fuel →
      fetch_releases pages fuel = Option.some [])
    ∧ (∀ (pages : Nat → Nat → PageResp) (fuel : Nat) (log : List PageRequest),
      fetch_releases_requests pages fuel = Option.some log →
      ∀ r ∈ log, r.per_page = 100) := by
  refine ⟨?_, ?_, ?_⟩
  · intro pages k fuel h h200 hempty hfuel
    have hrun := fetch_go_success pages k fuel 1 [] [] h h200 hempty hfuel
    unfold fetch_releases fetch_releases_requests
    rw [hrun]
    simp
  · intro pages k fuel h hbad hfuel
    have hrun := fetch_go_fail pages k fuel 1 [] [] h hbad hfuel
    unfold fetch_releases
    rw [hrun]
    rfl
  · intro pages fuel log hlog r hr
    unfold fetch_releases_requests at hlog
    obtain ⟨res, hres, hfst⟩ := Option.map_eq_some'.mp hlog
    exact fetch_go_per_page pages fuel 1 [] [] (by simp) res hres r (hfst ▸ hr)

theorem fetch_releases_spec_witness :
    fetch_releases pagesTwo 5 = Option.some (expectedItems pagesTwo 1 2)
    ∧ expectedItems pagesTwo 1 2 = [rProd, rOlder]
    ∧ fetch_releases pagesFail 5 = Option.some [] := by
  have h1 := fetch_releases_spec.1 pagesTwo 2 5 (by decide) (by decide) (by decide) (by decide)
  have h2 := fetch_releases_spec.2.1 pagesFail 1 5 (by decide) (by decide) (by decide)
  exact ⟨h1.1, by decide, h2⟩
